import Mathlib

/-!
# Verification of the reactive-state core (observer / scheduler / next-tick)

A shallow embedding of the repository's reactivity core:

* `src/unnamed/part_000` — `core/observer/index.js`: `Observer`, `observe`,
  `defineReactive` (its `reactiveSetter`), `set`, `del`;
* `src/src/core/observer/array.js` — three concatenated modules: the array
  mutating-method interceptors, the watcher scheduler
  (`queueWatcher` / `flushSchedulerQueue` / `resetSchedulerState`) and the
  deferred-execution primitive (`nextTick` / `flushCallbacks`);
* `src/src/core/observer/watcher.js` — the `Watcher` class (dependency
  collection, reconciliation, run/update).

JavaScript values are modelled by small inductive types; machine-level
details that the claims do not touch (prototype internals, property
descriptors) are represented by explicit boolean fields recording the
results of the corresponding runtime tests.
-/

namespace VueCore

/-! ## JS value model for reactive fields (`defineReactive` setter)

`reactiveSetter` compares values with JavaScript `===`.  The only subtlety
the code exploits is that `NaN === NaN` is `false`; `RVal.nan` models that
element.  Object values compare by identity (an id). -/

inductive RVal where
  | num (n : Int)
  | nan
  | str (s : String)
  | obj (id : Nat)
  | undef
  deriving DecidableEq, Repr

/-- JavaScript strict equality `===` restricted to `RVal`:
`NaN === NaN` is `false`, objects compare by identity. -/
def strictEq : RVal → RVal → Bool
  | RVal.num a, RVal.num b => a == b
  | RVal.str a, RVal.str b => a == b
  | RVal.obj a, RVal.obj b => a == b
  | RVal.undef, RVal.undef => true
  | _, _ => false

/-- `x !== x` holds exactly for `NaN`. -/
theorem strictEq_self_eq_false_iff (x : RVal) : strictEq x x = false ↔ x = RVal.nan := by
  cases x <;> simp [strictEq]

/-- Observable side effects of one call to the intercepted setter, in the
order the code performs them. -/
inductive SetAction where
  | callSetter (v : RVal)   -- `setter.call(obj, newVal)` (pre-existing setter)
  | storeVal (v : RVal)     -- `val = newVal` (plain field storage)
  | observeNew              -- `childOb = !shallow && observe(newVal)`
  | notifyDep               -- `dep.notify()`
  deriving DecidableEq, Repr

/-- The `set: function reactiveSetter (newVal)` installed by
`defineReactive` (src/unnamed/part_000, lines 218–241), as the list of side
effects it performs.  `getterOut` is the value produced by the pre-existing
getter when there is one, `val` the closure-captured plain value. -/
def reactiveSetter (hasGetter hasSetter shallow : Bool) (getterOut val newVal : RVal) :
    List SetAction :=
  -- const value = getter ? getter.call(obj) : val
  let value := if hasGetter then getterOut else val
  -- if (newVal === value || (newVal !== newVal && value !== value)) return
  if strictEq newVal value || (!strictEq newVal newVal && !strictEq value value) then
    []
  -- if (getter && !setter) return
  else if hasGetter && !hasSetter then
    []
  else
    (if hasSetter then [SetAction.callSetter newVal] else [SetAction.storeVal newVal])
      ++ (if !shallow then [SetAction.observeNew] else [])
      ++ [SetAction.notifyDep]

/-- NaN-aware "unchanged" as the claim words it: identical values, or old
and new both NaN. -/
def nanAwareSame (a b : RVal) : Prop :=
  strictEq a b = true ∨ (a = RVal.nan ∧ b = RVal.nan)

instance (a b : RVal) : Decidable (nanAwareSame a b) := by
  unfold nanAwareSame; infer_instance

/-! ## `observe` (src/unnamed/part_000, lines 123–146)

A JS value as seen by `observe`: boolean fields record the outcome of each
runtime test the function performs. -/

structure OValue where
  /-- `isObject(value)`: a container (object or array). -/
  isObj : Bool
  /-- `value instanceof VNode`: an internal node-like value. -/
  isVNode : Bool
  /-- `hasOwn(value, '__ob__') && value.__ob__ instanceof Observer`. -/
  hasOb : Bool
  /-- identity of the attached `Observer`, meaningful when `hasOb`. -/
  obId : Nat
  /-- `ob.vmCount` of the attached observer, meaningful when `hasOb`. -/
  vmCount : Nat
  /-- `Array.isArray(value)`. -/
  isArray : Bool
  /-- `isPlainObject(value)`. -/
  isPlain : Bool
  /-- `Object.isExtensible(value)`. -/
  extensible : Bool
  /-- `value._isVue`. -/
  isVue : Bool
  deriving DecidableEq, Repr

/-- `observe(value, asRootData)` — returns the updated value (a fresh
`Observer` is attached with identity `fresh` when one is created) and the
identity of the returned observer, `none` when the function returns
`undefined`.  `shouldObs` models the global `shouldObserve` toggle,
`serverR` the `isServerRendering()` predicate. -/
def observe (shouldObs serverR : Bool) (fresh : Nat) (v : OValue) (asRootData : Bool) :
    OValue × Option Nat :=
  -- if (!isObject(value) || value instanceof VNode) return
  if !v.isObj || v.isVNode then
    (v, none)
  else
    -- ob = value.__ob__  (existing observer), else maybe new Observer(value)
    let (v1, ob) :=
      if v.hasOb then
        (v, some v.obId)
      else if shouldObs && !serverR && (v.isArray || v.isPlain) && v.extensible && !v.isVue then
        ({ v with hasOb := true, obId := fresh, vmCount := 0 }, some fresh)
      else
        (v, none)
    -- if (asRootData && ob) ob.vmCount++
    match ob with
    | some _ => (if asRootData then { v1 with vmCount := v1.vmCount + 1 } else v1, ob)
    | none => (v1, none)

/-! ## Array mutating-method interception
(src/src/core/observer/array.js, lines 29–52) -/

/-- Return value of a JS array method. -/
inductive JsRet where
  | num (n : Int)       -- e.g. the new length for push/unshift
  | elt (e : Int)       -- a removed element (pop/shift)
  | list (l : List Int) -- an array result (splice/sort/reverse)
  | undef               -- pop/shift on an empty array
  deriving DecidableEq, Repr

/-- The seven patched methods (`methodsToPatch`). -/
inductive ArrMethod where
  | push | pop | shift | unshift | splice | sort | reverse
  deriving DecidableEq, Repr

/-- JS default sort comparison: elements are compared as strings. -/
def jsStrLe (a b : Int) : Bool := decide (toString a ≤ toString b)

/-- `Array.prototype.splice` semantics (start and deleteCount clamped per
ECMA-262): returns the new array and the removed slice. -/
def jsSplice (arr : List Int) (args : List Int) : List Int × List Int :=
  match args with
  | [] => (arr, [])
  | start :: rest =>
    let len : Int := arr.length
    let s : Nat := (if start < 0 then max (len + start) 0 else min start len).toNat
    let dc : Nat :=
      match rest with
      | [] => arr.length - s   -- deleteCount omitted: delete to the end
      | d :: _ => (min (max d 0) (len - (s : Int))).toNat
    let items := rest.drop 1
    (arr.take s ++ items ++ arr.drop (s + dc), (arr.drop s).take dc)

/-- The real built-in operation (`const original = arrayProto[method]`):
new array contents and return value. -/
def jsOriginal (m : ArrMethod) (arr : List Int) (args : List Int) : List Int × JsRet :=
  match m with
  | ArrMethod.push => (arr ++ args, JsRet.num (arr.length + args.length))
  | ArrMethod.pop =>
    match arr.getLast? with
    | some e => (arr.dropLast, JsRet.elt e)
    | none => (arr, JsRet.undef)
  | ArrMethod.shift =>
    match arr with
    | e :: rest => (rest, JsRet.elt e)
    | [] => ([], JsRet.undef)
  | ArrMethod.unshift => (args ++ arr, JsRet.num (args.length + arr.length))
  | ArrMethod.splice =>
    let (a, removed) := jsSplice arr args
    (a, JsRet.list removed)
  | ArrMethod.sort =>
    let a := arr.mergeSort jsStrLe  -- default comparator: string comparison
    (a, JsRet.list a)
  | ArrMethod.reverse => (arr.reverse, JsRet.list arr.reverse)

/-- Side effects of one intercepted call, in order. -/
inductive MutEvent where
  | ranOriginal                       -- `original.apply(this, args)`
  | observedInserted (l : List Int)   -- `ob.observeArray(inserted)`
  | notified                          -- `ob.dep.notify()`
  deriving DecidableEq, Repr

/-- Result of the `mutator` wrapper installed for each patched method. -/
structure MutResult where
  newArr : List Int
  ret : JsRet
  events : List MutEvent
  deriving DecidableEq, Repr

/-- `function mutator (...args)` (array.js lines 32–51): run the original,
determine `inserted` (`args` for push/unshift, `args.slice(2)` for splice,
`undefined` otherwise), observe the inserted elements, notify, and return
the original's result. -/
def mutator (m : ArrMethod) (arr : List Int) (args : List Int) : MutResult :=
  let pr := jsOriginal m arr args
  let inserted : Option (List Int) :=
    match m with
    | ArrMethod.push => some args
    | ArrMethod.unshift => some args
    | ArrMethod.splice => some (args.drop 2)
    | _ => none
  { newArr := pr.1
    ret := pr.2
    events := [MutEvent.ranOriginal]
      ++ (match inserted with
          | some l => [MutEvent.observedInserted l]
          | none => [])
      ++ [MutEvent.notified] }

/-- The inserted elements as the claim describes them: all arguments for
push/unshift, the arguments past the first two for splice, none otherwise. -/
def insertedPerClaim (m : ArrMethod) (args : List Int) : List Int :=
  match m with
  | ArrMethod.push => args
  | ArrMethod.unshift => args
  | ArrMethod.splice => args.drop 2
  | _ => []

/-- Elements whose wrapping (`observe`) was requested by this call. -/
def MutResult.observed (r : MutResult) : List Int :=
  r.events.foldr (fun e acc =>
    match e with
    | MutEvent.observedInserted l => l ++ acc
    | _ => acc) []

/-- Number of `notify()` calls this call performed. -/
def MutResult.notifyCount (r : MutResult) : Nat :=
  r.events.count MutEvent.notified

/-! ## The scheduler
(src/src/core/observer/array.js, middle module: lines 67–244)

Watchers are identified by their (unique, monotone) `id : Nat`; the queue
holds ids.  `has` is the pending-presence set, `index` the in-flush cursor,
`ranLog` a history of every `watcher.run()` invocation (an observation
added for the statements; the code itself keeps `queue.slice()` copies). -/

/-- `export const MAX_UPDATE_COUNT = 100` (array.js line 67). -/
def MAX_UPDATE_COUNT : Nat := 100

structure SchedState where
  /-- `has`: ids currently marked pending. -/
  has : List Nat
  /-- `queue`: the watcher queue (ids, front = index 0). -/
  queue : List Nat
  /-- `flushing` flag. -/
  flushing : Bool
  /-- `waiting` flag (a flush has been registered via `nextTick`). -/
  waiting : Bool
  /-- `index`: the in-flush cursor. -/
  index : Nat
  /-- `circular`: the dev-mode per-id re-entry counters.  This version of
  the code only ever resets it; nothing increments or reads it. -/
  circular : List (Nat × Nat)
  /-- observation: number of `nextTick(flushSchedulerQueue)` registrations. -/
  ticks : Nat
  /-- observation: every id on which `watcher.run()` was invoked, in order. -/
  ranLog : List Nat
  deriving DecidableEq, Repr

/-- What one watcher does when the scheduler processes it.  `user`,
`getterThrows`, `fires` and `cbThrows` mirror `Watcher.run`
(watcher.js lines 210–236): a `user` watcher's getter error is captured by
`handleError` and its callback runs under `invokeWithErrorHandling`, so
only non-`user` watchers (or a throwing `before` hook) let an exception
escape `run()` into the flush loop. -/
structure RunBehavior where
  /-- the optional `before()` hook throws. -/
  beforeThrows : Bool := false
  /-- the watcher was created with `user: true`. -/
  user : Bool := false
  /-- the evaluation (`this.get()`) throws. -/
  getterThrows : Bool := false
  /-- ids this watcher passes to `queueWatcher` while running
  (re-invalidations raised by its own run). -/
  spawn : List Nat := []
  /-- the value-changed test passes, so the callback is invoked. -/
  fires : Bool := false
  /-- the callback throws. -/
  cbThrows : Bool := false

/-- `run()` lets an exception escape exactly when the watcher is not a
`user` watcher and either its getter or its (fired) callback throws. -/
def RunBehavior.rawRunThrow (b : RunBehavior) : Bool :=
  !b.user && (b.getterThrows || (b.fires && b.cbThrows))

/-- The backwards scan of `queueWatcher`'s flushing branch, on the reversed
tail of the queue: `let i = queue.length - 1; while (i > index &&
queue[i].id > watcher.id) i--; queue.splice(i + 1, 0, watcher)`. -/
def insFromEnd (id : Nat) : List Nat → List Nat
  | [] => [id]
  | x :: xs => if x > id then x :: insFromEnd id xs else id :: x :: xs

/-- Insertion of `id` into `q` at its sorted position past the cursor
`index`, exactly as the splice above: positions `0..index` are never
scanned, so the insertion lands at a position `≥ index + 1`. -/
def spliceIn (index : Nat) (id : Nat) (q : List Nat) : List Nat :=
  q.take (index + 1) ++ ((insFromEnd id (q.drop (index + 1)).reverse).reverse)

/-- `queueWatcher(watcher)` (array.js lines 218–244). -/
def queueWatcher (s : SchedState) (id : Nat) : SchedState :=
  -- if (has[id] == null)
  if id ∈ s.has then s
  else
    let s1 := { s with has := id :: s.has }
    let s2 :=
      if !s1.flushing then
        { s1 with queue := s1.queue ++ [id] }
      else
        { s1 with queue := spliceIn s1.index id s1.queue }
    -- if (!waiting) { waiting = true; nextTick(flushSchedulerQueue) }
    if !s2.waiting then { s2 with waiting := true, ticks := s2.ticks + 1 } else s2

/-- `resetSchedulerState()` (array.js lines 81–88), dev build
(`circular = {}` is dev-only; this model takes the dev configuration). -/
def resetSchedulerState (s : SchedState) : SchedState :=
  { s with index := 0, queue := [], has := [], circular := [],
           waiting := false, flushing := false }

/-- The `for (index = 0; index < queue.length; index++)` loop of
`flushSchedulerQueue` (array.js lines 150–158), fuel-bounded (the real loop
can run forever, see `MAX_UPDATE_COUNT` below).  Returns the state and
whether an exception escaped the loop.  One iteration: `before()` (may
throw), `has[id] = null`, `watcher.run()` — during which the watcher's
re-invalidations call `queueWatcher`, and an uncaught error aborts the
whole loop (there is no try/catch here). -/
def flushLoop (beh : Nat → RunBehavior) : Nat → SchedState → SchedState × Bool
  | 0, s => (s, false)
  | fuel + 1, s =>
    if h : s.index < s.queue.length then
      let w := s.queue[s.index]
      let b := beh w
      if b.beforeThrows then
        (s, true)                                 -- exception in before(): loop aborted
      else
        let s1 := { s with has := s.has.erase w, ranLog := s.ranLog ++ [w] }
        let s2 := b.spawn.foldl queueWatcher s1   -- re-invalidations during run()
        if b.rawRunThrow then
          (s2, true)                              -- exception escapes run(): loop aborted
        else
          flushLoop beh fuel { s2 with index := s2.index + 1 }
    else (s, false)

/-- `queue.sort((a, b) => a.id - b.id)` (array.js line 144): sort the
queue ascending by watcher id. -/
def sortQueue (q : List Nat) : List Nat :=
  q.insertionSort (· ≤ ·)

/-- The state `flushSchedulerQueue` enters its loop with: `flushing = true`,
the queue sorted, the cursor at 0. -/
def flushInit (s : SchedState) : SchedState :=
  { s with flushing := true, queue := sortQueue s.queue, index := 0 }

/-- `flushSchedulerQueue()` (array.js lines 125–175): set `flushing`, sort
the queue ascending by id, run the loop; on normal completion take the
post-queue snapshots and `resetSchedulerState()`.  An escaping exception
(or exhausted fuel, i.e. a diverging flush) leaves the state as the loop
left it: the reset is *not* reached. -/
def flushSchedulerQueue (beh : Nat → RunBehavior) (fuel : Nat) (s : SchedState) :
    SchedState × Bool :=
  let r := flushLoop beh fuel (flushInit s)
  if r.2 then r
  else if r.1.queue.length ≤ r.1.index then (resetSchedulerState r.1, false)
  else r

/-! ## The deferred-execution primitive
(src/src/core/observer/array.js, last module: `nextTick` lines 340–368,
`flushCallbacks` lines 257–267)

A registered callback is modelled by what it does when run: it may register
further callbacks (nested `nextTick` calls) and may throw.  The wrapper
pushed by `nextTick` runs the callback inside `try { cb.call(ctx) } catch
(e) { handleError(e, ctx, 'nextTick') }`. -/

inductive CB where
  | mk (id : Nat) (throws : Bool) (regs : List CB)

def CB.id : CB → Nat
  | CB.mk i _ _ => i

def CB.throws : CB → Bool
  | CB.mk _ t _ => t

def CB.regs : CB → List CB
  | CB.mk _ _ r => r

structure TickState where
  /-- `callbacks`: the pending wrapped callbacks. -/
  callbacks : List CB
  /-- `pending` flag: a flush of the list is already scheduled. -/
  pending : Bool
  /-- observation: ids of callbacks that were run, in order. -/
  ran : List Nat
  /-- observation: `handleError(e, ctx, ...)` calls — (callback id, context). -/
  handled : List (Nat × String)
  /-- observation: number of `timerFunc()` invocations (flushes scheduled). -/
  timers : Nat

/-- `nextTick(cb, ctx)` (array.js lines 340–368): push the wrapped callback;
if no flush is pending, mark one pending and schedule it via `timerFunc`. -/
def nextTick (s : TickState) (cb : CB) : TickState :=
  let s1 := { s with callbacks := s.callbacks ++ [cb] }
  if !s1.pending then { s1 with pending := true, timers := s1.timers + 1 } else s1

/-- Run one wrapped callback: the callback body registers its nested
`nextTick` calls; if it throws, the wrapper routes the error to
`handleError` with context `"nextTick"` (and the flush loop continues). -/
def runCallback (s : TickState) (cb : CB) : TickState :=
  let s1 := { s with ran := s.ran ++ [cb.id] }
  let s2 := cb.regs.foldl nextTick s1
  { s2 with handled := s2.handled ++ if cb.throws then [(cb.id, "nextTick")] else [] }

/-- `flushCallbacks()` (array.js lines 257–267): clear `pending`, snapshot
`copies = callbacks.slice(0)`, empty `callbacks`, then run every captured
callback in order. -/
def flushCallbacks (s : TickState) : TickState :=
  let copies := s.callbacks
  let s1 := { s with pending := false, callbacks := [] }
  copies.foldl runCallback s1

/-! ## `set` (src/unnamed/part_000, lines 251–280)

The target as `set` inspects it.  `key in target` consults the whole
prototype chain, so own fields, `protoKeys` (keys inherited from a
prototype other than `Object.prototype`) and `objectProtoKeys` all count;
`key in Object.prototype` consults only the latter. -/

/-- Own property names of `Object.prototype` (the built-ins every object
inherits). -/
def objectProtoKeys : List String :=
  ["constructor", "hasOwnProperty", "isPrototypeOf", "propertyIsEnumerable",
   "toLocaleString", "toString", "valueOf"]

structure STarget where
  /-- `Array.isArray(target)`. -/
  isArray : Bool
  /-- array contents (meaningful when `isArray`; `none` = hole/undefined). -/
  arr : List (Option Int)
  /-- own fields of the object. -/
  fields : List (String × Int)
  /-- keys inherited from the prototype chain below `Object.prototype`. -/
  protoKeys : List String
  /-- `target.__ob__` is present. -/
  hasOb : Bool
  /-- `ob.vmCount`, meaningful when `hasOb`. -/
  vmCount : Nat
  /-- `target._isVue`. -/
  isVue : Bool
  deriving DecidableEq, Repr

/-- `key in target` (prototype chain included). -/
def STarget.keyIn (t : STarget) (key : String) : Bool :=
  t.fields.any (fun p => p.1 == key) || key ∈ t.protoKeys || key ∈ objectProtoKeys

/-- `target[key] = val`: overwrite the own field, or create it. -/
def updateField (fields : List (String × Int)) (key : String) (val : Int) :
    List (String × Int) :=
  if fields.any (fun p => p.1 == key) then
    fields.map (fun p => if p.1 == key then (key, val) else p)
  else
    fields ++ [(key, val)]

/-- `isValidArrayIndex(val)`: a non-negative integer index.  String keys
are modelled, so this is `String.toNat?` succeeding on a non-empty digit
string. -/
def isValidArrayIndex (key : String) : Bool :=
  (key.toNat?).isSome

structure SetResult where
  target : STarget
  ret : Int
  /-- a `dep.notify()` reached its subscribers through this call
  (directly via `ob.dep.notify()`, or through the intercepted `splice`). -/
  notified : Bool
  /-- `defineReactive` was invoked, installing tracking for the key. -/
  installedReactive : Bool
  deriving DecidableEq, Repr

/-- `set(target, key, val)` (src/unnamed/part_000, lines 251–280). -/
def set (t : STarget) (key : String) (val : Int) : SetResult :=
  -- if (Array.isArray(target) && isValidArrayIndex(key))
  if t.isArray && isValidArrayIndex key then
    -- target.length = Math.max(target.length, key); target.splice(key, 1, val)
    let k := (key.toNat?).getD 0
    let padded := t.arr ++ List.replicate (max t.arr.length k - t.arr.length) none
    let newArr := padded.take k ++ [some val] ++ padded.drop (k + 1)
    -- the intercepted splice notifies the wrapper's subject when observed
    { target := { t with arr := newArr }, ret := val,
      notified := t.hasOb, installedReactive := false }
  -- if (key in target && !(key in Object.prototype))
  else if t.keyIn key && !(key ∈ objectProtoKeys) then
    { target := { t with fields := updateField t.fields key val }, ret := val,
      notified := false, installedReactive := false }
  -- if (target._isVue || (ob && ob.vmCount)) return val
  else if t.isVue || (t.hasOb && t.vmCount != 0) then
    { target := t, ret := val, notified := false, installedReactive := false }
  -- if (!ob) { target[key] = val; return val }
  else if !t.hasOb then
    { target := { t with fields := updateField t.fields key val }, ret := val,
      notified := false, installedReactive := false }
  -- defineReactive(ob.value, key, val); ob.dep.notify(); return val
  else
    { target := { t with fields := updateField t.fields key val }, ret := val,
      notified := true, installedReactive := true }

/-! ## Watcher dependency collection and reconciliation
(src/src/core/observer/watcher.js: `get` lines 103–134, `addDep` lines
143–152, `cleanupDeps` lines 158–178)

The state is viewed from one watcher: `deps`/`depIds` the previous
generation, `newDeps`/`newDepIds` the generation being collected, and
`subs` the set of dependency subjects that currently hold this watcher in
their subscriber list.  `Dep` itself lives in `core/observer/dep.js`,
which is not part of the shown sources; per the spec (§4.1),
`addSubscriber` appends the watcher if not already present,
`removeSubscriber` removes it if present, and `depend()` calls the active
watcher's `addDep` with the subject — `subs` and the `touched` list below
model exactly that. -/

/-- Subscription calls issued by the watcher on dependency subjects. -/
inductive DepEvent where
  | addSub (d : Nat)      -- `dep.addSub(this)`
  | removeSub (d : Nat)   -- `dep.removeSub(this)`
  deriving DecidableEq, Repr

structure WDeps where
  deps : List Nat
  depIds : List Nat
  newDeps : List Nat
  newDepIds : List Nat
  /-- Modelled from the spec: ids of subjects whose subscriber list holds
  this watcher (`dep.js` is not under src/; spec §4.1 says `addSubscriber`
  is a no-op on duplicates and `removeSubscriber` removes if present). -/
  subs : List Nat
  /-- observation: the addSub/removeSub calls of the current evaluation. -/
  events : List DepEvent
  deriving DecidableEq, Repr

/-- `addDep(dep)` (watcher.js lines 143–152): record the subject in the
new generation if not already recorded, and `dep.addSub(this)` when it was
not subscribed in the previous generation.  (The source first pushes onto
`newDepIds`/`newDeps` and then tests `depIds`; neither step touches the
other's fields, so the two tests are written side by side here.) -/
def addDep (w : WDeps) (d : Nat) : WDeps :=
  if d ∈ w.newDepIds then w
  else if d ∈ w.depIds then
    { w with newDepIds := w.newDepIds ++ [d], newDeps := w.newDeps ++ [d] }
  else
    -- dep.addSub(this)
    { w with newDepIds := w.newDepIds ++ [d], newDeps := w.newDeps ++ [d],
             subs := if d ∈ w.subs then w.subs else w.subs ++ [d],
             events := w.events ++ [DepEvent.addSub d] }

/-- One step of the `while (i--)` loop of `cleanupDeps`:
`if (!newDepIds.has(dep.id)) dep.removeSub(this)`. -/
def removeStale (newIds : List Nat) (w : WDeps) (d : Nat) : WDeps :=
  if d ∈ newIds then w
  else { w with subs := w.subs.erase d, events := w.events ++ [DepEvent.removeSub d] }

/-- `cleanupDeps()` (watcher.js lines 158–178): unsubscribe from every
previous-generation subject absent from the new generation, then swap the
generations and clear the temporaries. -/
def cleanupDeps (w : WDeps) : WDeps :=
  let w1 := w.deps.reverse.foldl (removeStale w.newDepIds) w
  { w1 with depIds := w1.newDepIds, newDepIds := [],
            deps := w1.newDeps, newDeps := [] }

/-- `get()` (watcher.js lines 103–134).  `touched` is the sequence of
dependency subjects whose `depend()` fired while this watcher was the
active target (each such call lands in `addDep`); `throws` says whether
the getter threw.  The `popTarget(); cleanupDeps()` pair sits in a
`finally` block, so reconciliation happens on both paths; only the
returned value differs (`none` models the propagating exception of a
non-user watcher). -/
def WDeps.get (w : WDeps) (touched : List Nat) (throws : Bool) : WDeps × Option Unit :=
  -- pushTarget(this); value = getter.call(vm, vm)  — fires addDep per touched subject
  let w1 := touched.foldl addDep { w with events := [] }
  -- finally { popTarget(); cleanupDeps() }
  (cleanupDeps w1, if throws then none else some ())

/-- Well-formedness between evaluations: the temporaries are empty, the
previous generation is duplicate-free with `depIds` mirroring `deps`, and
the watcher sits in exactly the subscriber lists of its `deps`. -/
def WDeps.WF (w : WDeps) : Prop :=
  w.newDeps = [] ∧ w.newDepIds = [] ∧ w.deps.Nodup ∧ w.depIds = w.deps ∧
  w.subs.Nodup ∧ (∀ d, d ∈ w.subs ↔ d ∈ w.deps)

instance (w : WDeps) : Decidable w.WF := by
  unfold WDeps.WF
  have : Decidable (∀ d, d ∈ w.subs ↔ d ∈ w.deps) := by
    refine decidable_of_iff (w.subs ⊆ w.deps ∧ w.deps ⊆ w.subs) ?_
    constructor
    · rintro ⟨h1, h2⟩ d; exact ⟨fun hd => h1 hd, fun hd => h2 hd⟩
    · intro h; exact ⟨fun d hd => (h d).1 hd, fun d hd => (h d).2 hd⟩
  infer_instance

/-! ## Watcher construction from a string expression
(src/src/core/observer/watcher.js, lines 79–97) -/

/-- A JS value reachable from the vm by property lookup. -/
inductive JVal where
  | undef
  | num (n : Int)
  | obj (fields : List (String × JVal))

/-- Modelled from the spec: `parsePath` lives in `core/util/lang.js`,
which is not under src/.  Per the spec (§6), a string evaluation source is
"a dotted-path string ... limited to simple non-computed chained lookups;
anything else requires the function form": a path is accepted exactly when
every character is a word character, a dot or `$`, and it is then split on
dots into segments. -/
def parsePath (s : String) : Option (List String) :=
  if s.toList.all (fun c => c.isAlphanum || c = '_' || c = '.' || c = '$') then
    some (s.splitOn ".")
  else
    none

def lookupField (key : String) : List (String × JVal) → JVal
  | [] => JVal.undef
  | (k, v) :: rest => if k == key then v else lookupField key rest

/-- Walking a parsed path: `for each segment { if (!obj) return; obj =
obj[segment] }` (modelled from the spec alongside `parsePath`). -/
def evalPath : List String → JVal → JVal
  | [], v => v
  | _ :: _, JVal.undef => JVal.undef
  | seg :: rest, JVal.obj fields => evalPath rest (lookupField seg fields)
  | _ :: _, JVal.num _ => JVal.undef

/-- The getter a string-constructed watcher ends up with. -/
inductive GetterK where
  | path (segs : List String)   -- `this.getter = parsePath(expOrFn)`
  | noop                        -- fallback: `this.getter = noop`
  deriving DecidableEq, Repr

/-- Evaluating the getter against the vm: `noop` returns `undefined`. -/
def evalGetter : GetterK → JVal → JVal
  | GetterK.path segs, vm => evalPath segs vm
  | GetterK.noop, _ => JVal.undef

structure WatcherCtor where
  getter : GetterK
  value : JVal
  /-- a dev-mode `warn("Failed watching path: ...")` was emitted. -/
  warned : Bool

/-- The string branch of the `Watcher` constructor (watcher.js lines
79–97) followed by `this.value = this.lazy ? undefined : this.get()`:
when `parsePath` fails the getter is replaced by `noop` (warning in dev
mode), so construction completes normally instead of throwing. -/
def mkWatcherFromString (dev lazy : Bool) (vm : JVal) (expOrFn : String) : WatcherCtor :=
  let (g, warned) :=
    match parsePath expOrFn with
    | some segs => (GetterK.path segs, false)
    | none => (GetterK.noop, dev)
  { getter := g
    value := if lazy then JVal.undef else evalGetter g vm
    warned := warned }

/-! # Theorems -/

/-! ## C6 — array mutator interception -/

/-- C6: for every wrapped sequence, each of the seven intercepted mutating
operations first runs the real built-in operation, then wraps exactly the
newly inserted elements (all arguments for push/unshift, the arguments
past the first two for splice, none for the others), then calls `notify()`
on the wrapper's own subject exactly once, and returns the real
operation's result unchanged. -/
theorem mutator_runs_original_wraps_inserted_notifies_once
    (m : ArrMethod) (arr args : List Int) :
    (mutator m arr args).newArr = (jsOriginal m arr args).1 ∧
    (mutator m arr args).ret = (jsOriginal m arr args).2 ∧
    (mutator m arr args).observed = insertedPerClaim m args ∧
    (mutator m arr args).notifyCount = 1 ∧
    (mutator m arr args).events.head? = some MutEvent.ranOriginal ∧
    (mutator m arr args).events.getLast? = some MutEvent.notified := by
  cases m <;>
    simp [mutator, insertedPerClaim, MutResult.observed, MutResult.notifyCount,
      List.count_cons, List.count_nil]

/-! ## C7 — the reactive setter's no-op and notify conditions -/

/-- The code's change test `newVal === value || (newVal !== newVal &&
value !== value)` is exactly NaN-aware sameness. -/
theorem unchangedCond_iff (a b : RVal) :
    (strictEq a b || (!strictEq a a && !strictEq b b)) = true ↔ nanAwareSame a b := by
  simp [nanAwareSame, Bool.or_eq_true, Bool.and_eq_true, Bool.not_eq_true',
    strictEq_self_eq_false_iff]

/-- The setter's behavior, rephrased on the NaN-aware test (a pure
rewriting of `reactiveSetter` via `unchangedCond_iff`). -/
theorem reactiveSetter_eq (hasGetter hasSetter shallow : Bool)
    (getterOut val newVal : RVal) :
    reactiveSetter hasGetter hasSetter shallow getterOut val newVal =
      if nanAwareSame newVal (if hasGetter then getterOut else val) then []
      else if hasGetter && !hasSetter then []
      else
        (if hasSetter then [SetAction.callSetter newVal] else [SetAction.storeVal newVal])
          ++ (if !shallow then [SetAction.observeNew] else []) ++ [SetAction.notifyDep] := by
  have h1 := unchangedCond_iff newVal (if hasGetter then getterOut else val)
  unfold reactiveSetter
  by_cases hc : nanAwareSame newVal (if hasGetter then getterOut else val)
  · simp [h1.mpr hc, hc]
  · have hb : (strictEq newVal (if hasGetter then getterOut else val) ||
        (!strictEq newVal newVal &&
          !strictEq (if hasGetter then getterOut else val)
            (if hasGetter then getterOut else val))) = false := by
      have h2 : ¬ _ = true := fun h => hc (h1.mp h)
      simpa using h2
    simp [hb, hc]

/-- C7: the intercepted write notifies the field's dependency subject
exactly when the new value differs from the current value under NaN-aware
equality and the field is not a getter-only accessor; in the no-op cases
nothing happens (no store, no setter call, no notification). -/
theorem reactiveSetter_notify_iff (hasGetter hasSetter shallow : Bool)
    (getterOut val newVal : RVal) :
    (SetAction.notifyDep ∈ reactiveSetter hasGetter hasSetter shallow getterOut val newVal ↔
      (¬ nanAwareSame newVal (if hasGetter then getterOut else val) ∧
        ¬ (hasGetter = true ∧ hasSetter = false))) ∧
    (nanAwareSame newVal (if hasGetter then getterOut else val) →
      reactiveSetter hasGetter hasSetter shallow getterOut val newVal = []) ∧
    (hasGetter = true → hasSetter = false →
      reactiveSetter hasGetter hasSetter shallow getterOut val newVal = []) := by
  rw [reactiveSetter_eq]
  by_cases hc : nanAwareSame newVal (if hasGetter then getterOut else val)
  · simp [hc]
  · cases hasGetter <;> cases hasSetter <;> cases shallow <;> simp [hc]

/-- Witness for C7 at concrete inputs: writing the held value `1` is a
no-op; writing NaN over NaN is a no-op; a getter-only field swallows a
changed write; a changed write on a plain field notifies. -/
theorem reactiveSetter_notify_iff_witness :
    (reactiveSetter false true false RVal.undef (RVal.num 1) (RVal.num 1) = []) ∧
    (reactiveSetter false false false RVal.undef RVal.nan RVal.nan = []) ∧
    (reactiveSetter true false false (RVal.num 1) RVal.undef (RVal.num 2) = []) ∧
    (SetAction.notifyDep ∈ reactiveSetter false false false RVal.undef (RVal.num 1) (RVal.num 2)) :=
  ⟨(reactiveSetter_notify_iff false true false RVal.undef (RVal.num 1) (RVal.num 1)).2.1
      (by decide),
   (reactiveSetter_notify_iff false false false RVal.undef RVal.nan RVal.nan).2.1
      (by decide),
   (reactiveSetter_notify_iff true false false (RVal.num 1) RVal.undef (RVal.num 2)).2.2
      rfl rfl,
   (reactiveSetter_notify_iff false false false RVal.undef (RVal.num 1) (RVal.num 2)).1.mpr
      (by decide)⟩

/-! ## C10 — watcher construction from an invalid path string -/

/-- C10: a `Watcher` constructed with a string evaluation source that is
not a simple dot-delimited path does not fail: the getter is replaced by
`noop` (warning exactly in development mode), the initial value is
`undefined`, and every subsequent evaluation of the getter yields
`undefined`.  (`mkWatcherFromString` is a total function: with the `noop`
fallback in place, no step of the construction can throw.) -/
theorem watcher_invalid_path_noop (dev lazy : Bool) (vm : JVal) (s : String)
    (h : parsePath s = none) :
    (mkWatcherFromString dev lazy vm s).getter = GetterK.noop ∧
    (mkWatcherFromString dev lazy vm s).warned = dev ∧
    (mkWatcherFromString dev lazy vm s).value = JVal.undef ∧
    (∀ vm', evalGetter (mkWatcherFromString dev lazy vm s).getter vm' = JVal.undef) := by
  unfold mkWatcherFromString
  rw [h]
  cases lazy <;> simp [evalGetter]

/-- Witness for C10: `"a+b"` is not a simple dot-delimited path. -/
theorem watcher_invalid_path_noop_witness :
    parsePath "a+b" = none ∧
    (mkWatcherFromString true false (JVal.obj [("a", JVal.num 3)]) "a+b").getter
      = GetterK.noop ∧
    (mkWatcherFromString true false (JVal.obj [("a", JVal.num 3)]) "a+b").value
      = JVal.undef :=
  have h : parsePath "a+b" = none := by decide
  ⟨h, (watcher_invalid_path_noop true false (JVal.obj [("a", JVal.num 3)]) "a+b" h).1,
    (watcher_invalid_path_noop true false (JVal.obj [("a", JVal.num 3)]) "a+b" h).2.2.1⟩

/-! ## C8 — idempotent wrapping -/

/-- A value that already carries an observer but is no longer extensible
(observed first, frozen afterwards). -/
def frozenObserved : OValue :=
  { isObj := true, isVNode := false, hasOb := true, obId := 7, vmCount := 0,
    isArray := true, isPlain := false, extensible := false, isVue := false }

/-- C8 counterexample: the claim's second half states that `wrap` "returns
nothing for ... non-extensible values", but a non-extensible value that
already carries a wrapper is answered by the earlier `__ob__` branch:
`observe` returns the existing wrapper (id 7), not nothing. -/
theorem observe_nonextensible_not_none :
    ¬ ((observe true false 99 frozenObserved false).2 = none) := by decide

/-- C8 (amended): wrapping is idempotent — a value already carrying a
wrapper gets that same wrapper back (no new wrapper is created), so
wrapping twice yields the identical wrapper instance; `wrap` returns
nothing for non-container or node-like values unconditionally, and, for
values not already carrying a wrapper, when the value is non-extensible,
already a special instance, observation is globally disabled, the code
runs in server-rendering mode, or the value is neither an array nor a
plain object. -/
theorem observe_idempotent_and_guards (so sr : Bool) (fresh : Nat) (v : OValue)
    (root root' : Bool) :
    (v.isObj = true → v.isVNode = false → v.hasOb = true →
      (observe so sr fresh v root).2 = some v.obId ∧
      (observe so sr fresh v root).1.hasOb = true ∧
      (observe so sr fresh v root).1.obId = v.obId) ∧
    (v.isObj = true → v.isVNode = false → v.hasOb = false → so = true → sr = false →
      (v.isArray || v.isPlain) = true → v.extensible = true → v.isVue = false →
      (observe so sr fresh v root).2 = some fresh ∧
      (observe so sr fresh ((observe so sr fresh v root).1) root').2 = some fresh) ∧
    ((v.isObj = false ∨ v.isVNode = true) → (observe so sr fresh v root).2 = none) ∧
    (v.hasOb = false →
      (v.extensible = false ∨ v.isVue = true ∨ so = false ∨ sr = true ∨
        (v.isArray = false ∧ v.isPlain = false)) →
      (observe so sr fresh v root).2 = none) := by
  refine ⟨fun ho hv hob => ?_, fun ho hv hob hso hsr harr hext hvue => ?_,
    fun h => ?_, fun hob hguard => ?_⟩
  · cases root <;> simp [observe, ho, hv, hob]
  · subst hso; subst hsr
    constructor
    · cases root <;> simp [observe, ho, hv, hob, harr, hext, hvue]
    · cases root <;> simp [observe, ho, hv, hob, harr, hext, hvue]
  · rcases h with h | h <;> simp [observe, h]
  · by_cases ho : v.isObj = true
    · by_cases hv : v.isVNode = true
      · simp [observe, hv]
      · have hv' : v.isVNode = false := by simpa using hv
        simp only [observe, ho, hv', Bool.not_true, Bool.or_false, Bool.not_false,
          Bool.false_eq_true, if_false, hob]
        rcases hso : so <;> rcases hsr : sr <;>
          rcases harr : (v.isArray || v.isPlain) <;>
          rcases hext : v.extensible <;> rcases hvue : v.isVue <;>
            simp_all
    · have ho' : v.isObj = false := by simpa using ho
      simp [observe, ho']

/-- Witness for C8 (amended): a fresh plain object is wrapped with id 99,
wrapping it again returns wrapper 99; a frozen unwrapped object yields
nothing. -/
theorem observe_idempotent_and_guards_witness :
    ((observe true false 99
        { isObj := true, isVNode := false, hasOb := false, obId := 0, vmCount := 0,
          isArray := false, isPlain := true, extensible := true, isVue := false }
        false).2 = some 99 ∧
      (observe true false 99
        ((observe true false 99
          { isObj := true, isVNode := false, hasOb := false, obId := 0, vmCount := 0,
            isArray := false, isPlain := true, extensible := true, isVue := false }
          false).1) true).2 = some 99) ∧
    (observe true false 99
        { isObj := true, isVNode := false, hasOb := false, obId := 0, vmCount := 0,
          isArray := false, isPlain := true, extensible := false, isVue := false }
        false).2 = none :=
  ⟨(observe_idempotent_and_guards true false 99
      { isObj := true, isVNode := false, hasOb := false, obId := 0, vmCount := 0,
        isArray := false, isPlain := true, extensible := true, isVue := false }
      false true).2.1 rfl rfl rfl rfl rfl rfl rfl rfl,
   (observe_idempotent_and_guards true false 99
      { isObj := true, isVNode := false, hasOb := false, obId := 0, vmCount := 0,
        isArray := false, isPlain := true, extensible := false, isVue := false }
      false true).2.2.2 rfl (Or.inl rfl)⟩

/-! ## C5 — `set` on untracked / root-owned targets -/

/-- A root-owned observed object (`vmCount = 1`) with no `"x"` field. -/
def rootOwnedTarget : STarget :=
  { isArray := false, arr := [], fields := [], protoKeys := [],
    hasOb := true, vmCount := 1, isVue := false }

/-- C5 counterexample: on a root-owned target (`vmCount > 0`) with a new
key, the claim says `set` "sets the plain field on the target and returns
the value"; the code's `if (target._isVue || (ob && ob.vmCount)) return
val` branch returns *without* setting anything — the result's fields are
not the fields with `"x" ↦ 5` added. -/
theorem set_root_owned_does_not_set :
    ¬ ((set rootOwnedTarget "x" 5).target.fields
        = updateField rootOwnedTarget.fields "x" 5) := by decide

/-- C5 (amended): for a non-array path and a key that is not present
(own, inherited or built-in): if the target has no Observed Wrapper and
is not a Vue instance, `set` stores the plain field and returns the value
with no tracking installed and no notification; if the target is a Vue
instance or is root-owned with `vmCount > 0`, `set` returns the value
*without setting the field at all*, with no tracking and no
notification. -/
theorem set_untracked_paths (t : STarget) (key : String) (val : Int)
    (harr : ¬ (t.isArray = true ∧ isValidArrayIndex key = true))
    (hkey : t.keyIn key = false) :
    (t.hasOb = false → t.isVue = false →
      (set t key val).target.fields = updateField t.fields key val ∧
      (set t key val).ret = val ∧
      (set t key val).notified = false ∧
      (set t key val).installedReactive = false) ∧
    (t.isVue = true ∨ (t.hasOb = true ∧ t.vmCount ≠ 0) →
      (set t key val).target = t ∧
      (set t key val).ret = val ∧
      (set t key val).notified = false ∧
      (set t key val).installedReactive = false) := by
  have harr' : (t.isArray && isValidArrayIndex key) = false := by
    rcases h1 : t.isArray <;> rcases h2 : isValidArrayIndex key <;> simp_all
  have hkey' : (t.keyIn key && !(decide (key ∈ objectProtoKeys))) = false := by
    simp [hkey]
  constructor
  · intro hob hvue
    simp [set, harr', hkey', hob, hvue]
  · intro hcase
    have hguard : (t.isVue || (t.hasOb && t.vmCount != 0)) = true := by
      rcases hcase with h | ⟨h1, h2⟩
      · simp [h]
      · simp [h1, h2]
    simp [set, harr', hkey', hguard]

/-- An unobserved plain object with one field `"a"`. -/
def unobservedTarget : STarget :=
  { isArray := false, arr := [], fields := [("a", 1)], protoKeys := [],
    hasOb := false, vmCount := 0, isVue := false }

/-- Witness for C5 (amended), at an unobserved plain object and at the
root-owned target. -/
theorem set_untracked_paths_witness :
    ((set unobservedTarget "x" 5).target.fields = [("a", 1), ("x", 5)] ∧
     (set unobservedTarget "x" 5).notified = false) ∧
    ((set rootOwnedTarget "x" 5).target = rootOwnedTarget ∧
     (set rootOwnedTarget "x" 5).notified = false) :=
  have h1 := set_untracked_paths unobservedTarget "x" 5 (by decide) (by decide)
  have h2 := set_untracked_paths rootOwnedTarget "x" 5 (by decide) (by decide)
  ⟨⟨by
      have h3 := (h1.1 rfl rfl).1
      simpa [updateField, unobservedTarget] using h3,
    (h1.1 rfl rfl).2.2.1⟩,
   ⟨(h2.2 (Or.inr ⟨rfl, by decide⟩)).1, (h2.2 (Or.inr ⟨rfl, by decide⟩)).2.2.1⟩⟩

/-! ## C9 — the deferred-execution flush -/

/-- Registering a list of callbacks appends them to the pending list and
schedules at most one flush (one `timerFunc()` call, only when none was
pending before and at least one callback is registered). -/
theorem foldl_nextTick_eq (regs : List CB) (s : TickState) :
    regs.foldl nextTick s =
      { s with callbacks := s.callbacks ++ regs,
               pending := s.pending || !regs.isEmpty,
               timers := s.timers + (if s.pending || regs.isEmpty then 0 else 1) } := by
  induction regs generalizing s with
  | nil => simp
  | cons cb rest ih =>
    rw [List.foldl_cons, ih]
    unfold nextTick
    cases hp : s.pending <;> simp

theorem isEmpty_append_eq {α : Type} (l1 l2 : List α) :
    (l1 ++ l2).isEmpty = (l1.isEmpty && l2.isEmpty) := by
  cases l1 <;> simp

/-- Effect of running a list of captured callbacks in order. -/
theorem foldl_runCallback_eq (l : List CB) (s : TickState) :
    l.foldl runCallback s =
      { s with callbacks := s.callbacks ++ l.flatMap CB.regs,
               pending := s.pending || !(l.flatMap CB.regs).isEmpty,
               ran := s.ran ++ l.map CB.id,
               handled := s.handled
                 ++ (l.filter CB.throws).map (fun cb => (cb.id, "nextTick")),
               timers := s.timers
                 + (if s.pending || (l.flatMap CB.regs).isEmpty then 0 else 1) } := by
  induction l generalizing s with
  | nil => simp
  | cons cb rest ih =>
    rw [List.foldl_cons, ih]
    simp only [runCallback, foldl_nextTick_eq]
    simp only [TickState.mk.injEq, List.flatMap_cons, List.filter_cons,
      isEmpty_append_eq, List.map_cons]
    refine ⟨by simp [List.append_assoc], ?_, by simp [List.append_assoc], ?_, ?_⟩
    · cases s.pending <;> cases cb.regs.isEmpty <;>
        cases (rest.flatMap CB.regs).isEmpty <;> simp
    · cases ht : cb.throws <;> simp [List.append_assoc]
    · cases hp : s.pending <;> cases h1 : cb.regs.isEmpty <;>
        cases h2 : (rest.flatMap CB.regs).isEmpty <;> simp [hp, h1, h2]

/-- C9: `flushCallbacks` snapshots and clears the pending list before any
callback runs, runs the captured callbacks in registration order,
callbacks registered from within a running callback are left pending for
the next flush (which the first such registration schedules, exactly
once), and a throwing callback is reported to `handleError` with context
`"nextTick"` without preventing its siblings from running. -/
theorem flushCallbacks_snapshot_order_errors (l : List CB) (p : Bool)
    (ran0 : List Nat) (h0 : List (Nat × String)) (t0 : Nat) :
    flushCallbacks { callbacks := l, pending := p, ran := ran0, handled := h0, timers := t0 } =
      { callbacks := l.flatMap CB.regs,
        pending := !(l.flatMap CB.regs).isEmpty,
        ran := ran0 ++ l.map CB.id,
        handled := h0 ++ (l.filter CB.throws).map (fun cb => (cb.id, "nextTick")),
        timers := t0 + (if (l.flatMap CB.regs).isEmpty then 0 else 1) } := by
  unfold flushCallbacks
  rw [foldl_runCallback_eq]
  cases h : (l.flatMap CB.regs).isEmpty <;> simp [h]

/-! ## C1 — dependency reconciliation after every evaluation -/

/-- Invariant through the collection phase (`addDep` calls fired by the
evaluation): `D` is the previous generation, `subs0` the subscriber lists
holding the watcher before the evaluation, `seen` the subjects whose
`depend()` has fired so far. -/
def CollectInv (D subs0 seen : List Nat) (st : WDeps) : Prop :=
  st.deps = D ∧ st.depIds = D ∧
  st.newDepIds.Nodup ∧ (∀ x, x ∈ st.newDepIds ↔ x ∈ seen) ∧
  st.newDeps = st.newDepIds ∧
  st.subs.Nodup ∧ (∀ x, x ∈ st.subs ↔ (x ∈ subs0 ∨ x ∈ seen)) ∧
  (∀ x, st.events.count (DepEvent.addSub x) = if x ∈ seen ∧ x ∉ D then 1 else 0) ∧
  (∀ x, st.events.count (DepEvent.removeSub x) = 0)

theorem addDep_inv {D subs0 seen : List Nat} {st : WDeps}
    (hDsub : ∀ x, x ∈ subs0 ↔ x ∈ D)
    (h : CollectInv D subs0 seen st) (d : Nat) :
    CollectInv D subs0 (seen ++ [d]) (addDep st d) := by
  obtain ⟨h1, h2, h3, h4, h5, h6, h7, h8, h9⟩ := h
  unfold addDep
  by_cases hd : d ∈ st.newDepIds
  · have hds : d ∈ seen := (h4 d).mp hd
    rw [if_pos hd]
    refine ⟨h1, h2, h3, fun x => ?_, h5, h6, fun x => ?_, fun x => ?_, h9⟩
    · simp only [List.mem_append, List.mem_singleton, h4]
      exact ⟨Or.inl, fun hx => hx.elim id (fun e => e ▸ hds)⟩
    · simp only [List.mem_append, List.mem_singleton, h7]
      constructor
      · rintro (hx | hx)
        · exact Or.inl hx
        · exact Or.inr (Or.inl hx)
      · rintro (hx | hx | hx)
        · exact Or.inl hx
        · exact Or.inr hx
        · exact Or.inr (hx ▸ hds)
    · rw [h8 x]
      by_cases hx : x = d
      · subst hx; simp [hds]
      · simp [List.mem_append, hx]
  · rw [if_neg hd]
    have hdseen : d ∉ seen := fun hds => hd ((h4 d).mpr hds)
    have hnn : (st.newDepIds ++ [d]).Nodup := by
      simp [List.nodup_append, h3, hd]
    have hnm : ∀ x, x ∈ st.newDepIds ++ [d] ↔ x ∈ seen ++ [d] := by
      intro x
      simp only [List.mem_append, List.mem_singleton, h4]
    by_cases hd2 : d ∈ st.depIds
    · rw [if_pos hd2]
      have hdD : d ∈ D := h2 ▸ hd2
      refine ⟨h1, h2, hnn, hnm, by rw [h5], h6, fun x => ?_, fun x => ?_, h9⟩
      · simp only [List.mem_append, List.mem_singleton, h7]
        constructor
        · rintro (hx | hx)
          · exact Or.inl hx
          · exact Or.inr (Or.inl hx)
        · rintro (hx | hx | hx)
          · exact Or.inl hx
          · exact Or.inr hx
          · exact Or.inl (hx ▸ ((hDsub d).mpr hdD))
      · rw [h8 x]
        by_cases hx : x = d
        · subst hx; simp [hdD]
        · simp [List.mem_append, hx]
    · rw [if_neg hd2]
      have hdD : d ∉ D := fun hx => hd2 (h2 ▸ hx)
      have hdsub : d ∉ st.subs := fun hx =>
        ((h7 d).mp hx).elim (fun hx0 => hdD ((hDsub d).mp hx0)) hdseen
      rw [if_neg hdsub]
      refine ⟨h1, h2, hnn, hnm, by rw [h5], by simp [List.nodup_append, h6, hdsub],
        fun x => ?_, fun x => ?_, fun x => ?_⟩
      · simp only [List.mem_append, List.mem_singleton, h7]
        tauto
      · simp only [List.count_append, h8]
        by_cases hx : x = d
        · subst hx; simp [hdseen, hdD]
        · simp [List.mem_append, hx]
      · simp only [List.count_append, h9]
        simp

theorem collect_fold {D subs0 : List Nat} (hDsub : ∀ x, x ∈ subs0 ↔ x ∈ D) :
    ∀ (t seen : List Nat) (st : WDeps), CollectInv D subs0 seen st →
      CollectInv D subs0 (seen ++ t) (t.foldl addDep st)
  | [], seen, st, h => by simpa using h
  | d :: rest, seen, st, h => by
    rw [List.foldl_cons]
    have h2 := collect_fold hDsub rest (seen ++ [d]) (addDep st d) (addDep_inv hDsub h d)
    simpa [List.append_assoc] using h2

/-- Effect of the `cleanupDeps` unsubscribe loop over a duplicate-free
list `L` of previous-generation subjects. -/
theorem removeStale_fold (N : List Nat) :
    ∀ (L : List Nat) (st : WDeps), L.Nodup → st.subs.Nodup →
      (L.foldl (removeStale N) st).deps = st.deps ∧
      (L.foldl (removeStale N) st).depIds = st.depIds ∧
      (L.foldl (removeStale N) st).newDeps = st.newDeps ∧
      (L.foldl (removeStale N) st).newDepIds = st.newDepIds ∧
      (L.foldl (removeStale N) st).subs.Nodup ∧
      (∀ x, x ∈ (L.foldl (removeStale N) st).subs ↔
        (x ∈ st.subs ∧ ¬(x ∈ L ∧ x ∉ N))) ∧
      (∀ x, ((L.foldl (removeStale N) st).events.count (DepEvent.addSub x)
        = st.events.count (DepEvent.addSub x))) ∧
      (∀ x, ((L.foldl (removeStale N) st).events.count (DepEvent.removeSub x)
        = st.events.count (DepEvent.removeSub x)
            + if x ∈ L ∧ x ∉ N then 1 else 0))
  | [], st, _, hsub => by simp [hsub]
  | d :: rest, st, hL, hsub => by
    rw [List.foldl_cons]
    have hLrest : rest.Nodup := hL.of_cons
    have hdrest : d ∉ rest := by
      intro hx
      exact (List.nodup_cons.mp hL).1 hx
    by_cases hdN : d ∈ N
    · have hstep : removeStale N st d = st := by
        unfold removeStale; rw [if_pos hdN]
      rw [hstep]
      obtain ⟨g1, g2, g3, g4, g5, g6, g7, g8⟩ := removeStale_fold N rest st hLrest hsub
      refine ⟨g1, g2, g3, g4, g5, fun x => ?_, g7, fun x => ?_⟩
      · rw [g6 x]
        by_cases hx : x = d
        · subst hx; simp [hdN]
        · simp [hx]
      · rw [g8 x]
        by_cases hx : x = d
        · subst hx; simp [hdN]
        · simp [hx]
    · have hstep : removeStale N st d =
          { st with subs := st.subs.erase d,
                    events := st.events ++ [DepEvent.removeSub d] } := by
        unfold removeStale; rw [if_neg hdN]
      rw [hstep]
      have hsub2 : (st.subs.erase d).Nodup := hsub.erase d
      obtain ⟨g1, g2, g3, g4, g5, g6, g7, g8⟩ :=
        removeStale_fold N rest
          { st with subs := st.subs.erase d,
                    events := st.events ++ [DepEvent.removeSub d] } hLrest hsub2
      refine ⟨g1, g2, g3, g4, g5, fun x => ?_, fun x => ?_, fun x => ?_⟩
      · rw [g6 x]
        simp only [hsub.mem_erase_iff]
        by_cases hx : x = d
        · subst hx; simp [hdN]
        · simp [hx]
      · rw [g7 x]
        simp [List.count_append]
      · rw [g8 x]
        simp only [List.count_append]
        by_cases hx : x = d
        · subst hx
          simp [hdN, hdrest]
        · simp [hx]

/-- After a collection phase described by `CollectInv`, `cleanupDeps`
leaves the watcher subscribed to exactly the touched subjects, with the
correct `addSub`/`removeSub` call counts, and re-establishes
well-formedness. -/
theorem cleanupDeps_reconciles {D subs0 touched : List Nat} {st : WDeps}
    (hD : D.Nodup) (hDsub : ∀ x, x ∈ subs0 ↔ x ∈ D)
    (h : CollectInv D subs0 touched st) :
    (∀ d, d ∈ (cleanupDeps st).deps ↔ d ∈ touched) ∧
    (cleanupDeps st).depIds = (cleanupDeps st).deps ∧
    (cleanupDeps st).deps.Nodup ∧
    (∀ d, d ∈ (cleanupDeps st).subs ↔ d ∈ touched) ∧
    (∀ d, (cleanupDeps st).events.count (DepEvent.addSub d)
      = if d ∈ touched ∧ d ∉ D then 1 else 0) ∧
    (∀ d, (cleanupDeps st).events.count (DepEvent.removeSub d)
      = if d ∈ D ∧ d ∉ touched then 1 else 0) ∧
    (cleanupDeps st).WF := by
  obtain ⟨c1, c2, c3, c4, c5, c6, c7, c8, c9⟩ := h
  obtain ⟨g1, g2, g3, g4, g5, g6, g7, g8⟩ :=
    removeStale_fold st.newDepIds (st.deps.reverse) st
      (by rw [c1]; exact List.nodup_reverse.mpr hD) c6
  have hdeps : ∀ d, d ∈ (cleanupDeps st).deps ↔ d ∈ touched := by
    intro d
    show d ∈ ((st.deps.reverse).foldl (removeStale st.newDepIds) st).newDeps ↔ _
    rw [g3, c5]
    exact c4 d
  have hsubs : ∀ d, d ∈ (cleanupDeps st).subs ↔ d ∈ touched := by
    intro d
    show d ∈ ((st.deps.reverse).foldl (removeStale st.newDepIds) st).subs ↔ _
    rw [g6 d, c7 d, c1, List.mem_reverse, c4 d, hDsub d]
    by_cases hd : d ∈ touched <;> by_cases hD2 : d ∈ D <;> simp [hd, hD2]
  have hnodup : (cleanupDeps st).deps.Nodup := by
    show ((st.deps.reverse).foldl (removeStale st.newDepIds) st).newDeps.Nodup
    rw [g3, c5]; exact c3
  refine ⟨hdeps, ?_, hnodup, hsubs, fun d => ?_, fun d => ?_, ?_⟩
  · show ((st.deps.reverse).foldl (removeStale st.newDepIds) st).newDepIds
      = ((st.deps.reverse).foldl (removeStale st.newDepIds) st).newDeps
    rw [g3, g4, c5]
  · show ((st.deps.reverse).foldl (removeStale st.newDepIds) st).events.count
      (DepEvent.addSub d) = _
    rw [g7 d, c8 d]
  · show ((st.deps.reverse).foldl (removeStale st.newDepIds) st).events.count
      (DepEvent.removeSub d) = _
    rw [g8 d, c9 d]
    simp only [c1, List.mem_reverse, c4 d, Nat.zero_add]
  · refine ⟨rfl, rfl, hnodup, ?_, ?_, fun d => ?_⟩
    · show ((st.deps.reverse).foldl (removeStale st.newDepIds) st).newDepIds
        = ((st.deps.reverse).foldl (removeStale st.newDepIds) st).newDeps
      rw [g3, g4, c5]
    · show ((st.deps.reverse).foldl (removeStale st.newDepIds) st).subs.Nodup
      exact g5
    · rw [hsubs d, hdeps d]

/-- C1: after every evaluation via `get()`, whether or not the getter
threw, the watcher's dependency sets (`deps`/`depIds`) and the subscriber
lists holding it (`subs`) equal exactly the set of subjects whose
`depend()` fired during that evaluation; a subject of the previous
generation not touched this time receives exactly one `removeSub` call, a
newly touched subject exactly one `addSub` call, and a subject already
subscribed in the previous generation receives no further `addSub`.  The
dependency-state outcome is identical for a throwing and a non-throwing
evaluation (`cleanupDeps` sits in the `finally` block). -/
theorem watcher_get_reconciles (w : WDeps) (touched : List Nat) (throws : Bool)
    (hW : w.WF) :
    (∀ d, d ∈ ((w.get touched throws).1).deps ↔ d ∈ touched) ∧
    ((w.get touched throws).1).depIds = ((w.get touched throws).1).deps ∧
    ((w.get touched throws).1).deps.Nodup ∧
    (∀ d, d ∈ ((w.get touched throws).1).subs ↔ d ∈ touched) ∧
    (∀ d, ((w.get touched throws).1).events.count (DepEvent.addSub d)
      = if d ∈ touched ∧ d ∉ w.deps then 1 else 0) ∧
    (∀ d, ((w.get touched throws).1).events.count (DepEvent.removeSub d)
      = if d ∈ w.deps ∧ d ∉ touched then 1 else 0) ∧
    ((w.get touched throws).1).WF ∧
    (w.get touched true).1 = (w.get touched false).1 := by
  obtain ⟨hW1, hW2, hW3, hW4, hW5, hW6⟩ := hW
  have hstart : CollectInv w.deps w.subs [] { w with events := [] } := by
    refine ⟨rfl, hW4, ?_, ?_, ?_, hW5, fun x => ?_, fun x => ?_, fun x => ?_⟩
    · show w.newDepIds.Nodup
      rw [hW2]; exact List.nodup_nil
    · intro x
      show x ∈ w.newDepIds ↔ x ∈ ([] : List Nat)
      rw [hW2]
    · show w.newDeps = w.newDepIds
      rw [hW1, hW2]
    · show x ∈ w.subs ↔ x ∈ w.subs ∨ x ∈ ([] : List Nat)
      simp
    · show List.count _ [] = _
      simp
    · show List.count _ [] = 0
      simp
  have hcol := collect_fold hW6 touched [] _ hstart
  simp only [List.nil_append] at hcol
  have hmain := cleanupDeps_reconciles hW3 hW6 hcol
  have hr : (w.get touched throws).1
      = cleanupDeps (touched.foldl addDep { w with events := [] }) := rfl
  rw [hr]
  exact ⟨hmain.1, hmain.2.1, hmain.2.2.1, hmain.2.2.2.1, hmain.2.2.2.2.1,
    hmain.2.2.2.2.2.1, hmain.2.2.2.2.2.2, rfl⟩

/-- A well-formed watcher subscribed to subjects 1 and 2. -/
def w0ex : WDeps :=
  { deps := [1, 2], depIds := [1, 2], newDeps := [], newDepIds := [],
    subs := [1, 2], events := [] }

/-- Witness for C1: an evaluation that throws and touches subjects 2, 3, 2
leaves the watcher on exactly {2, 3}: subject 3 got one `addSub`, subject
1 one `removeSub`. -/
theorem watcher_get_reconciles_witness :
    w0ex.WF ∧
    (3 ∈ ((w0ex.get [2, 3, 2] true).1).deps ↔ 3 ∈ [2, 3, 2]) ∧
    (1 ∈ ((w0ex.get [2, 3, 2] true).1).subs ↔ 1 ∈ [2, 3, 2]) ∧
    ((w0ex.get [2, 3, 2] true).1).events.count (DepEvent.addSub 3) = 1 ∧
    ((w0ex.get [2, 3, 2] true).1).events.count (DepEvent.removeSub 1) = 1 :=
  have hW : w0ex.WF := by decide
  ⟨hW, (watcher_get_reconciles w0ex [2, 3, 2] true hW).1 3,
   (watcher_get_reconciles w0ex [2, 3, 2] true hW).2.2.2.1 1,
   by
     rw [(watcher_get_reconciles w0ex [2, 3, 2] true hW).2.2.2.2.1 3]
     decide,
   by
     rw [(watcher_get_reconciles w0ex [2, 3, 2] true hW).2.2.2.2.2.1 1]
     decide⟩

/-! ## Scheduler lemmas (C2, C3, C4) -/

theorem queueWatcher_preserves (s : SchedState) (id : Nat) :
    (queueWatcher s id).flushing = s.flushing ∧
    (queueWatcher s id).index = s.index ∧
    (queueWatcher s id).ranLog = s.ranLog ∧
    (queueWatcher s id).circular = s.circular := by
  unfold queueWatcher
  by_cases h1 : id ∈ s.has
  · simp [h1]
  · rw [if_neg h1]
    by_cases h2 : s.flushing = false <;> by_cases h3 : s.waiting = false <;>
      simp [h2, h3]

theorem mem_insFromEnd (id x : Nat) (l : List Nat) :
    x ∈ insFromEnd id l ↔ x = id ∨ x ∈ l := by
  induction l with
  | nil => simp [insFromEnd]
  | cons a as ih =>
    unfold insFromEnd
    split_ifs <;> simp [ih] <;> tauto

/-- `queueWatcher` never disturbs the part of the queue strictly past the
cursor: an id already there is still there afterwards. -/
theorem queueWatcher_mem_drop (s : SchedState) (id j : Nat)
    (h : j ∈ s.queue.drop (s.index + 1)) :
    j ∈ (queueWatcher s id).queue.drop (s.index + 1) := by
  have hlen : s.index + 1 < s.queue.length := by
    by_contra hc
    push_neg at hc
    rw [List.drop_eq_nil_of_le hc] at h
    exact absurd h (List.not_mem_nil j)
  unfold queueWatcher
  by_cases h1 : id ∈ s.has
  · rw [if_pos h1]; exact h
  · rw [if_neg h1]
    by_cases h2 : s.flushing = false
    · -- not flushing: append at the end
      have hmem : j ∈ (s.queue ++ [id]).drop (s.index + 1) := by
        rw [List.drop_append_eq_append_drop]
        exact List.mem_append_left _ h
      by_cases h3 : s.waiting = false <;> simp [h2, h3, hmem]
    · -- flushing: sorted insertion past the cursor
      have hmem : j ∈ (spliceIn s.index id s.queue).drop (s.index + 1) := by
        unfold spliceIn
        have htake : (s.queue.take (s.index + 1)).length = s.index + 1 :=
          List.length_take_of_le (le_of_lt hlen)
        rw [List.drop_append_eq_append_drop, htake, Nat.sub_self, List.drop_zero,
          List.drop_eq_nil_of_le (le_of_eq htake), List.nil_append,
          List.mem_reverse, mem_insFromEnd, List.mem_reverse]
        exact Or.inr h
      by_cases h3 : s.waiting = false <;> simp [h2, h3, hmem]

theorem foldl_queueWatcher_preserves (l : List Nat) (s : SchedState) :
    ((l.foldl queueWatcher s).flushing = s.flushing ∧
     (l.foldl queueWatcher s).index = s.index ∧
     (l.foldl queueWatcher s).ranLog = s.ranLog ∧
     (l.foldl queueWatcher s).circular = s.circular) := by
  induction l generalizing s with
  | nil => simp
  | cons a as ih =>
    rw [List.foldl_cons]
    obtain ⟨p1, p2, p3, p4⟩ := queueWatcher_preserves s a
    obtain ⟨q1, q2, q3, q4⟩ := ih (queueWatcher s a)
    exact ⟨q1.trans p1, q2.trans p2, q3.trans p3, q4.trans p4⟩

theorem foldl_queueWatcher_mem_drop (l : List Nat) (s : SchedState) (j : Nat)
    (h : j ∈ s.queue.drop (s.index + 1)) :
    j ∈ (l.foldl queueWatcher s).queue.drop (s.index + 1) := by
  induction l generalizing s with
  | nil => simpa using h
  | cons a as ih =>
    rw [List.foldl_cons]
    have h2 := queueWatcher_mem_drop s a j h
    have hidx : (queueWatcher s a).index = s.index := (queueWatcher_preserves s a).2.1
    have h3 := ih (queueWatcher s a) (by rw [hidx]; exact h2)
    rwa [hidx] at h3

theorem flushLoop_ranLog_mono (beh : Nat → RunBehavior) :
    ∀ (fuel : Nat) (s : SchedState) (j : Nat), j ∈ s.ranLog →
      j ∈ (flushLoop beh fuel s).1.ranLog := by
  intro fuel
  induction fuel with
  | zero => intro s j hj; simpa [flushLoop] using hj
  | succ n ih =>
    intro s j hj
    rw [flushLoop]
    by_cases h : s.index < s.queue.length
    · rw [dif_pos h]
      by_cases hb : (beh (s.queue[s.index])).beforeThrows
      · simpa [hb] using hj
      · rw [if_neg hb]
        by_cases hr : (beh (s.queue[s.index])).rawRunThrow
        · rw [if_pos hr]
          show j ∈ ((beh _).spawn.foldl queueWatcher _).ranLog
          rw [(foldl_queueWatcher_preserves _ _).2.2.1]
          exact List.mem_append_left _ hj
        · rw [if_neg hr]
          apply ih
          show j ∈ ((beh _).spawn.foldl queueWatcher _).ranLog
          rw [(foldl_queueWatcher_preserves _ _).2.2.1]
          exact List.mem_append_left _ hj
    · rw [dif_neg h]; exact hj

/-- Every id sitting in the not-yet-processed part of the queue when the
flush loop is at some cursor position is eventually run, provided the loop
drains the queue without an escaping exception.  This covers ids inserted
*during* the flush: `queueWatcher` places them past the cursor
(`queueWatcher_mem_drop`), i.e. in the region this lemma quantifies
over. -/
theorem flushLoop_runs_drop (beh : Nat → RunBehavior) :
    ∀ (fuel : Nat) (s s' : SchedState), flushLoop beh fuel s = (s', false) →
      s'.queue.length ≤ s'.index →
      ∀ j, j ∈ s.queue.drop s.index → j ∈ s'.ranLog := by
  intro fuel
  induction fuel with
  | zero =>
    intro s s' heq hdone j hj
    simp only [flushLoop] at heq
    obtain ⟨rfl, -⟩ : s = s' ∧ True := by
      refine ⟨?_, trivial⟩
      exact congrArg Prod.fst heq
    have : s.index < s.queue.length := by
      by_contra hc
      push_neg at hc
      rw [List.drop_eq_nil_of_le hc] at hj
      exact absurd hj (List.not_mem_nil j)
    omega
  | succ n ih =>
    intro s s' heq hdone j hj
    rw [flushLoop] at heq
    by_cases h : s.index < s.queue.length
    · rw [dif_pos h] at heq
      by_cases hb : (beh (s.queue[s.index])).beforeThrows
      · rw [if_pos hb] at heq
        exact absurd (congrArg Prod.snd heq) (by simp)
      · rw [if_neg hb] at heq
        by_cases hr : (beh (s.queue[s.index])).rawRunThrow
        · rw [if_pos hr] at heq
          exact absurd (congrArg Prod.snd heq) (by simp)
        · rw [if_neg hr] at heq
          -- the state after `has[id] = null` and the run's own enqueues
          have hpres := foldl_queueWatcher_preserves (beh (s.queue[s.index])).spawn
            { s with has := s.has.erase (s.queue[s.index]),
                     ranLog := s.ranLog ++ [s.queue[s.index]] }
          have hdropbase := fun (hjj : j ∈ s.queue.drop (s.index + 1)) =>
            foldl_queueWatcher_mem_drop (beh (s.queue[s.index])).spawn
              { s with has := s.has.erase (s.queue[s.index]),
                       ranLog := s.ranLog ++ [s.queue[s.index]] } j hjj
          generalize hT : (beh (s.queue[s.index])).spawn.foldl queueWatcher
              { s with has := s.has.erase (s.queue[s.index]),
                       ranLog := s.ranLog ++ [s.queue[s.index]] } = t at heq hpres hdropbase
          obtain ⟨hp1, hp2, hp3, hp4⟩ := hpres
          rw [List.drop_eq_getElem_cons h] at hj
          rcases List.mem_cons.mp hj with hj1 | hj2
          · -- j is the watcher being run: it lands in ranLog now
            have hran : j ∈ ({ t with index := t.index + 1 } : SchedState).ranLog := by
              show j ∈ t.ranLog
              rw [hp3]
              subst hj1
              exact List.mem_append_right _ (List.mem_singleton.mpr rfl)
            have hmono := flushLoop_ranLog_mono beh n
              { t with index := t.index + 1 } j hran
            rw [heq] at hmono
            exact hmono
          · -- j is past the cursor: it is still past the cursor after the
            -- watcher's own enqueues, and the loop continues there
            have hs2 := hdropbase hj2
            apply ih _ _ heq hdone j
            show j ∈ ({ t with index := t.index + 1 } : SchedState).queue.drop
              ({ t with index := t.index + 1 } : SchedState).index
            show j ∈ t.queue.drop (t.index + 1)
            rw [hp2]
            exact hs2
    · rw [dif_neg h] at heq
      obtain rfl : s = s' := congrArg Prod.fst heq
      have : s.queue.drop s.index = [] :=
        List.drop_eq_nil_of_le (by omega)
      rw [this] at hj
      exact absurd hj (List.not_mem_nil j)

/-- When no watcher lets an exception escape (`before` does not throw and
`run()` captures its errors — the `user` watcher paths), the flush loop
never aborts. -/
theorem flushLoop_noThrow (beh : Nat → RunBehavior)
    (hsafe : ∀ id, (beh id).beforeThrows = false ∧ (beh id).rawRunThrow = false) :
    ∀ (fuel : Nat) (s : SchedState), (flushLoop beh fuel s).2 = false := by
  intro fuel
  induction fuel with
  | zero => intro s; simp [flushLoop]
  | succ n ih =>
    intro s
    rw [flushLoop]
    by_cases h : s.index < s.queue.length
    · rw [dif_pos h]
      simp only [(hsafe (s.queue[s.index])).1, (hsafe (s.queue[s.index])).2,
        Bool.false_eq_true, if_false]
      exact ih _
    · rw [dif_neg h]

/-- The backwards scan inserts `id` right before the maximal suffix of
larger ids. -/
theorem insFromEnd_eq_takeWhile (id : Nat) (l : List Nat) :
    insFromEnd id l =
      l.takeWhile (fun x => decide (id < x)) ++ id :: l.dropWhile (fun x => decide (id < x)) := by
  induction l with
  | nil => simp [insFromEnd]
  | cons a as ih =>
    unfold insFromEnd
    by_cases hc : a > id
    · rw [if_pos hc, ih, List.takeWhile_cons, List.dropWhile_cons]
      simp [hc]
    · rw [if_neg hc, List.takeWhile_cons, List.dropWhile_cons]
      simp [hc]

/-- The backwards scan is an ordered insert for descending lists. -/
theorem insFromEnd_pairwise (id : Nat) (l : List Nat)
    (h : l.Pairwise (· ≥ ·)) : (insFromEnd id l).Pairwise (· ≥ ·) := by
  induction l with
  | nil => simp [insFromEnd]
  | cons a as ih =>
    unfold insFromEnd
    rcases List.pairwise_cons.mp h with ⟨ha, has⟩
    by_cases hc : a > id
    · rw [if_pos hc]
      refine List.pairwise_cons.mpr ⟨?_, ih has⟩
      intro x hx
      rcases (mem_insFromEnd id x as).mp hx with rfl | hx2
      · exact le_of_lt hc
      · exact ha x hx2
    · rw [if_neg hc]
      push_neg at hc
      refine List.pairwise_cons.mpr ⟨?_, h⟩
      intro x hx
      rcases List.mem_cons.mp hx with rfl | hx2
      · exact hc
      · exact le_trans (ha x hx2) hc

theorem queueWatcher_queue_flushing (s : SchedState) (id : Nat)
    (hf : s.flushing = true) (hid : id ∉ s.has) :
    (queueWatcher s id).queue = spliceIn s.index id s.queue := by
  unfold queueWatcher
  rw [if_neg hid]
  by_cases h3 : s.waiting = false <;> simp [hf, h3]

/-- An enqueue during a flush keeps the yet-to-run part of the queue
sorted. -/
theorem queueWatcher_sorted_suffix (s : SchedState) (id : Nat)
    (hf : s.flushing = true) (hid : id ∉ s.has) (hlen : s.index < s.queue.length)
    (hs : List.Sorted (· ≤ ·) (s.queue.drop (s.index + 1))) :
    List.Sorted (· ≤ ·) ((queueWatcher s id).queue.drop (s.index + 1)) := by
  rw [queueWatcher_queue_flushing s id hf hid]
  unfold spliceIn
  have htake : (s.queue.take (s.index + 1)).length = s.index + 1 :=
    List.length_take_of_le (by omega)
  rw [List.drop_append_eq_append_drop, htake, Nat.sub_self, List.drop_zero,
    List.drop_eq_nil_of_le (le_of_eq htake), List.nil_append]
  show List.Pairwise (· ≤ ·) (insFromEnd id (s.queue.drop (s.index + 1)).reverse).reverse
  rw [List.pairwise_reverse]
  apply insFromEnd_pairwise
  rw [List.pairwise_reverse]
  exact hs

/-- The during-flush insertion decomposes the queue at a point strictly
past the cursor: the prefix up to and including the currently running
watcher is untouched, and `id` lands inside the remaining region. -/
theorem spliceIn_decomp (index id : Nat) (q : List Nat) :
    ∃ u v, q = q.take (index + 1) ++ u ++ v ∧
      spliceIn index id q = q.take (index + 1) ++ u ++ id :: v := by
  refine ⟨((q.drop (index + 1)).reverse.dropWhile (fun x => decide (id < x))).reverse,
    ((q.drop (index + 1)).reverse.takeWhile (fun x => decide (id < x))).reverse, ?_, ?_⟩
  · conv_lhs => rw [← List.take_append_drop (index + 1) q]
    rw [List.append_assoc]
    congr 1
    conv_lhs => rw [← List.reverse_reverse (q.drop (index + 1)),
      ← List.takeWhile_append_dropWhile (p := fun x => decide (id < x))
        (l := (q.drop (index + 1)).reverse)]
    rw [List.reverse_append]
  · unfold spliceIn
    rw [insFromEnd_eq_takeWhile, List.append_assoc]
    congr 1
    rw [List.reverse_append, List.reverse_cons, List.append_assoc]
    simp

/-! ## C3 — pending-queue discipline -/

/-- C3: (i) enqueueing an id already in the pending-presence set is a
no-op; (ii) the queue used by the flush is sorted ascending by id (a
permutation of the pending ids); (iii) an enqueue during a flush inserts
the watcher past the current cursor at its sorted position — the
already-scanned prefix through the cursor is untouched and the pending
suffix stays sorted — rather than blindly appending, and every id in the
pending region of a flush that drains without an uncaught exception runs
within that same flush. -/
theorem queueWatcher_dedup_sorted_insert :
    (∀ s id, id ∈ s.has → queueWatcher s id = s) ∧
    (∀ q : List Nat, List.Sorted (· ≤ ·) (sortQueue q) ∧ (sortQueue q).Perm q) ∧
    (∀ s id, s.flushing = true → id ∉ s.has →
      (∃ u v, s.queue = s.queue.take (s.index + 1) ++ u ++ v ∧
        (queueWatcher s id).queue = s.queue.take (s.index + 1) ++ u ++ id :: v) ∧
      (s.index < s.queue.length →
        List.Sorted (· ≤ ·) (s.queue.drop (s.index + 1)) →
        List.Sorted (· ≤ ·) ((queueWatcher s id).queue.drop (s.index + 1)))) ∧
    (∀ beh fuel s s', flushLoop beh fuel s = (s', false) →
      s'.queue.length ≤ s'.index →
      ∀ j, j ∈ s.queue.drop s.index → j ∈ s'.ranLog) := by
  refine ⟨?_, ?_, ?_, flushLoop_runs_drop⟩
  · intro s id h
    unfold queueWatcher
    rw [if_pos h]
  · intro q
    exact ⟨List.sorted_insertionSort _ q, List.perm_insertionSort _ q⟩
  · intro s id hf hid
    refine ⟨?_, fun hlen hs => queueWatcher_sorted_suffix s id hf hid hlen hs⟩
    obtain ⟨u, v, h1, h2⟩ := spliceIn_decomp s.index id s.queue
    exact ⟨u, v, h1, by rw [queueWatcher_queue_flushing s id hf hid]; exact h2⟩

/-- A watcher behavior with no throws and no re-invalidations. -/
def behNone : Nat → RunBehavior := fun _ => {}

/-- Scheduler state with id 5 already pending. -/
def schedEx1 : SchedState :=
  { has := [5], queue := [5], flushing := false, waiting := true,
    index := 0, circular := [], ticks := 1, ranLog := [] }

/-- Mid-flush state: cursor on watcher 1, watcher 9 still pending. -/
def schedEx2 : SchedState :=
  { has := [9], queue := [1, 9], flushing := true, waiting := true,
    index := 0, circular := [], ticks := 1, ranLog := [] }

/-- Flushing state with watchers 1 and 2 pending. -/
def schedEx3 : SchedState :=
  { has := [1, 2], queue := [1, 2], flushing := true, waiting := true,
    index := 0, circular := [], ticks := 1, ranLog := [] }

/-- Witness for C3 at concrete states: re-enqueueing pending id 5 is a
no-op; `sortQueue [3,1,2]` is sorted; inserting id 5 mid-flush keeps the
pending suffix of `[1, 9]` sorted; and watcher 2 runs within the flush
that drains `[1, 2]`. -/
theorem queueWatcher_dedup_sorted_insert_witness :
    queueWatcher schedEx1 5 = schedEx1 ∧
    List.Sorted (· ≤ ·) (sortQueue [3, 1, 2]) ∧
    List.Sorted (· ≤ ·) ((queueWatcher schedEx2 5).queue.drop (schedEx2.index + 1)) ∧
    2 ∈ (flushLoop behNone 10 schedEx3).1.ranLog :=
  ⟨queueWatcher_dedup_sorted_insert.1 schedEx1 5 (by decide),
   (queueWatcher_dedup_sorted_insert.2.1 [3, 1, 2]).1,
   (queueWatcher_dedup_sorted_insert.2.2.1 schedEx2 5 rfl (by decide)).2
     (by decide) (by decide),
   queueWatcher_dedup_sorted_insert.2.2.2 behNone 10 schedEx3
     ((flushLoop behNone 10 schedEx3).1) (by decide) (by decide) 2 (by decide)⟩

/-! ## C2 — mid-flush errors -/

/-- Watcher 1 is a non-`user` watcher whose getter throws; other watchers
are plain. -/
def behGetterThrows : Nat → RunBehavior := fun id =>
  if id = 1 then { getterThrows := true } else {}

/-- Watchers 1 and 2 pending, flush about to start. -/
def schedThrowEx : SchedState :=
  { has := [1, 2], queue := [2, 1], flushing := false, waiting := true,
    index := 0, circular := [], ticks := 1, ranLog := [] }

/-- C2 counterexample: watcher 1 (non-user) throws inside `run()` during
the flush.  `flushSchedulerQueue` wraps nothing in try/finally, so the
exception escapes the loop: `resetSchedulerState` is never reached
(`flushing` stays `true`) and pending watcher 2 never runs — contradicting
the claim that state is reset and the remaining subscribers still run. -/
theorem flush_throw_skips_reset_and_rest :
    ¬ ((flushSchedulerQueue behGetterThrows 10 schedThrowEx).1.flushing = false ∧
       2 ∈ (flushSchedulerQueue behGetterThrows 10 schedThrowEx).1.ranLog) := by
  decide

/-- Every error raised while a watcher is processed is captured inside
`run()`: the `before` hook does not throw, and the getter/callback throws
only on `user` watchers (where `handleError` / `invokeWithErrorHandling`
swallow them). -/
def SchedulerSafe (beh : Nat → RunBehavior) : Prop :=
  ∀ id, (beh id).beforeThrows = false ∧ (beh id).rawRunThrow = false

/-- C2 (amended): when every mid-flush error is captured inside `run()`
(the `user`-watcher error paths), a flush that drains its queue resets the
scheduler state to its initial empty/false values and runs every pending
subscriber; but an uncaught throw from `before()` or a non-user watcher's
`run()` aborts the loop with no state reset and the remaining subscribers
skipped (see the counterexample). -/
theorem flush_reset_and_runs_all_when_captured (beh : Nat → RunBehavior)
    (fuel : Nat) (s : SchedState)
    (hsafe : SchedulerSafe beh)
    (hdone : (flushLoop beh fuel (flushInit s)).1.queue.length ≤
      (flushLoop beh fuel (flushInit s)).1.index) :
    (flushSchedulerQueue beh fuel s).2 = false ∧
    (flushSchedulerQueue beh fuel s).1.has = [] ∧
    (flushSchedulerQueue beh fuel s).1.queue = [] ∧
    (flushSchedulerQueue beh fuel s).1.index = 0 ∧
    (flushSchedulerQueue beh fuel s).1.waiting = false ∧
    (flushSchedulerQueue beh fuel s).1.flushing = false ∧
    (∀ j, j ∈ s.queue → j ∈ (flushSchedulerQueue beh fuel s).1.ranLog) := by
  have hnothrow := flushLoop_noThrow beh hsafe fuel (flushInit s)
  have hpair : flushLoop beh fuel (flushInit s)
      = ((flushLoop beh fuel (flushInit s)).1, false) := by
    rw [← hnothrow]
  have hrun : ∀ j, j ∈ s.queue →
      j ∈ (flushLoop beh fuel (flushInit s)).1.ranLog := by
    intro j hj
    refine flushLoop_runs_drop beh fuel (flushInit s) _ hpair hdone j ?_
    show j ∈ (flushInit s).queue.drop (flushInit s).index
    show j ∈ (sortQueue s.queue).drop 0
    rw [List.drop_zero]
    exact ((List.perm_insertionSort (· ≤ ·) s.queue).mem_iff).mpr hj
  have hflush : flushSchedulerQueue beh fuel s
      = (resetSchedulerState (flushLoop beh fuel (flushInit s)).1, false) := by
    unfold flushSchedulerQueue
    rw [hpair]
    simp only [Bool.false_eq_true, if_false]
    rw [if_pos hdone]
  rw [hflush]
  exact ⟨rfl, rfl, rfl, rfl, rfl, rfl, hrun⟩

/-- Witness for C2 (amended): with no raw throws, flushing `[2, 1]` resets
the queue and flags and runs watcher 2. -/
theorem flush_reset_and_runs_all_witness :
    (flushSchedulerQueue behNone 10 schedThrowEx).1.queue = [] ∧
    (flushSchedulerQueue behNone 10 schedThrowEx).1.flushing = false ∧
    2 ∈ (flushSchedulerQueue behNone 10 schedThrowEx).1.ranLog :=
  have h := flush_reset_and_runs_all_when_captured behNone 10 schedThrowEx
    (fun _ => ⟨rfl, rfl⟩) (by decide)
  ⟨h.2.2.1, h.2.2.2.2.2.1, h.2.2.2.2.2.2 2 (by decide)⟩

/-! ## C4 — the missing runaway-update-cycle guard -/

/-- A watcher that re-enqueues itself on every run. -/
def behSelfRequeue : Nat → RunBehavior := fun _ => { spawn := [1] }

/-- Initial pending state holding only watcher 1. -/
def cycleStart : SchedState :=
  { has := [1], queue := [1], flushing := false, waiting := true,
    index := 0, circular := [], ticks := 1, ranLog := [] }

set_option maxRecDepth 40000 in
/-- C4: this version of `flushSchedulerQueue` declares `circular` and
`MAX_UPDATE_COUNT` but never increments or checks them (the dev-mode
cycle-guard block of the upstream source is absent).  A watcher that
re-enqueues itself on every run is re-run without bound: after 120 loop
iterations it has run 120 > `MAX_UPDATE_COUNT` times, the flush has not
terminated (the queue keeps growing ahead of the cursor), and `circular`
is still empty — no re-entry counter was tracked and no runaway-cycle
report of any kind exists on this path. -/
theorem runaway_cycle_unreported :
    (flushSchedulerQueue behSelfRequeue 120 cycleStart).1.ranLog.length = 120 ∧
    MAX_UPDATE_COUNT < (flushSchedulerQueue behSelfRequeue 120 cycleStart).1.ranLog.length ∧
    (flushSchedulerQueue behSelfRequeue 120 cycleStart).1.circular = [] ∧
    (flushSchedulerQueue behSelfRequeue 120 cycleStart).2 = false ∧
    (flushSchedulerQueue behSelfRequeue 120 cycleStart).1.index <
      (flushSchedulerQueue behSelfRequeue 120 cycleStart).1.queue.length := by
  decide

end VueCore
